import Mathlib

/-!
Shallow embedding of the saga task layer in
`src/octavia/controller/worker/v2/tasks/database_tasks.py`.

Each task method is translated into an executable Lean function that
returns the ordered list of repository-adapter calls it issues together
with its outcome (`none` = returned normally, `some e` = raised the
exception `e`).  The behaviour of the repository adapter itself is
abstracted by an oracle `Oracle : RepoCall → Option ExnKind` that decides,
per call, whether the call succeeds or raises; the per-call state effect
of a successful autocommit call is recovered by `effects`.  The quota
tasks additionally thread an explicit quota-counter state through their
exclusive-locking session, mirroring the commit/rollback structure of the
source.
-/

namespace constants

def ACTIVE : String := "ACTIVE"

def ERROR : String := "ERROR"

def DELETED : String := "DELETED"

def PENDING_CREATE : String := "PENDING_CREATE"

def ONLINE : String := "ONLINE"

def OFFLINE : String := "OFFLINE"

def ROLE_MASTER : String := "MASTER"

def ROLE_BACKUP : String := "BACKUP"

def ROLE_STANDALONE : String := "STANDALONE"

def ROLE_MASTER_PRIORITY : Nat := 100

def ROLE_BACKUP_PRIORITY : Nat := 90

end constants

/-- Kinds of exceptions the repository layer can raise, as distinguished by
the `except` clauses in the source (`sqlalchemy.orm.exc.NoResultFound`,
`sqlalchemy.orm.exc.UnmappedInstanceError`, anything else). -/
inductive ExnKind
  | noResultFound
  | unmappedInstanceError
  | other (msg : String)
deriving DecidableEq, Repr

/-- The quota resource kinds (`octavia.common.data_models` classes used as
quota keys). -/
inductive QuotaKind
  | loadBalancer
  | listener
  | pool
  | member
  | healthMonitor
  | l7Policy
  | l7Rule
deriving DecidableEq, Repr

/-- One call through the repository adapter (or the explicit
commit/rollback of a locked session), with the keyword arguments the call
site passes.  `none` in a status field of an update means the field is not
part of the update's keyword arguments. -/
inductive RepoCall
  | amphoraDelete (id : String)
  | amphoraRoleUpdate (id : String) (role : Option String) (vrrpPriority : Option Nat)
  | ampHealthDelete (amphoraId : String)
  | hmDelete (id : String)
  | hmGet (id : String)
  | hmUpdate (id : String) (provStatus : Option String) (opStatus : Option String)
  | memberDelete (id : String)
  | memberUpdate (id : String) (provStatus : Option String) (opStatus : Option String)
  | listenerUpdate (id : String) (provStatus : String)
  | listenerProvActiveIfNotError (id : String)
  | poolGet (id : String)
  | poolUpdate (id : String) (provStatus : String)
  | l7policyUpdate (id : String) (provStatus : String)
  | l7ruleGet (id : String)
  | l7ruleUpdate (id : String) (provStatus : Option String) (opStatus : Option String)
  | lbGet (id : String)
  | lbUpdate (id : String) (provStatus : String)
  | decrementQuota (kind : QuotaKind) (projectId : String) (quantity : Nat)
  | checkQuotaMet (kind : QuotaKind) (projectId : String)
  | commit
  | rollback
deriving DecidableEq, Repr

/-- The repository-adapter behaviour for one run: which calls raise, and
with which exception. -/
abbrev Oracle := RepoCall → Option ExnKind

/-- The all-succeed repository behaviour. -/
def noFail : Oracle := fun _ => none

/-- The first argument taskflow hands a task's `revert`: either the
failure marker (`taskflow.types.failure.Failure`, meaning this task's own
`execute` raised) or the result the task's `execute` returned. -/
inductive RevertInput (α : Type)
  | failure
  | success (a : α)
deriving DecidableEq, Repr

/-- The operating_status keyword of a repository update call, when the
call has one. -/
def opField : RepoCall → Option String
  | RepoCall.hmUpdate _ _ op => op
  | RepoCall.memberUpdate _ _ op => op
  | RepoCall.l7ruleUpdate _ _ op => op
  | _ => none

/-- Is this call a `check_quota_met` re-increment attempt? -/
def isCheck : RepoCall → Bool
  | RepoCall.checkQuotaMet _ _ => true
  | _ => false

/-- The calls of a trace that succeeded, i.e. the mutations an
autocommit-session run actually applied to persistent state.  An empty
result means persistent state is unchanged. -/
def effects (φ : Oracle) (cs : List RepoCall) : List RepoCall :=
  cs.filter (fun c => (φ c).isNone)

/-- Issue one repository call on an autocommit session: the call is
attempted, and raises whatever the oracle says. -/
def single (φ : Oracle) (c : RepoCall) : List RepoCall × Option ExnKind :=
  ([c], φ c)

/-- Issue one repository call inside a `try/except Exception` block that
logs and swallows: the call is attempted but never raises. -/
def trySwallow (c : RepoCall) : List RepoCall × Option ExnKind :=
  ([c], none)

/-- Python sequencing of two statements: if the first raises, the second
never runs and the exception propagates. -/
def andThen (a b : List RepoCall × Option ExnKind) : List RepoCall × Option ExnKind :=
  match a.2 with
  | some e => (a.1, some e)
  | none => (a.1 ++ b.1, b.2)

/-- Python `for` loop over a list where the body may raise: stops at the
first raising iteration and propagates its exception. -/
def markList {α : Type} (f : α → List RepoCall × Option ExnKind) :
    List α → List RepoCall × Option ExnKind
  | [] => ([], none)
  | x :: xs =>
    match f x with
    | (tr, some e) => (tr, some e)
    | (tr, none) =>
      let rest := markList f xs
      (tr ++ rest.1, rest.2)

/-- Python `if x is not None`-guarded statement over an optional child. -/
def markOpt {α : Type} (f : α → List RepoCall × Option ExnKind) :
    Option α → List RepoCall × Option ExnKind
  | none => ([], none)
  | some x => f x

theorem andThen_fst_of_none {a b : List RepoCall × Option ExnKind} (h : a.2 = none) :
    (andThen a b).1 = a.1 ++ b.1 := by
  simp [andThen, h]

theorem andThen_snd_of_none {a b : List RepoCall × Option ExnKind} (h : a.2 = none) :
    (andThen a b).2 = b.2 := by
  simp [andThen, h]

/-!  The task embeddings, in the order the classes appear in the source. -/

/-- `BaseDatabaseTask._delete_from_amp_health`: delete the amphora_health
record, treating `NoResultFound` / `UnmappedInstanceError` (no existing
record) as success. -/
def BaseDatabaseTask.delete_from_amp_health (amphora_id : String) (φ : Oracle) :
    List RepoCall × Option ExnKind :=
  let c := RepoCall.ampHealthDelete amphora_id
  match φ c with
  | some ExnKind.noResultFound => ([c], none)
  | some ExnKind.unmappedInstanceError => ([c], none)
  | o => ([c], o)

/-- `CreateAmphoraInDB.revert`: no-op on the failure marker, otherwise
delete the created amphora inside a catch-all `try/except`. -/
def CreateAmphoraInDB.revert (result : RevertInput String) :
    List RepoCall × Option ExnKind :=
  match result with
  | RevertInput.failure => ([], none)
  | RevertInput.success amp_id => trySwallow (RepoCall.amphoraDelete amp_id)

/-- `DeleteHealthMonitorInDB.execute`: delete the health monitor,
ignoring `NoResultFound`. -/
def DeleteHealthMonitorInDB.execute (hm_id : String) (φ : Oracle) :
    List RepoCall × Option ExnKind :=
  let c := RepoCall.hmDelete hm_id
  match φ c with
  | some ExnKind.noResultFound => ([c], none)
  | o => ([c], o)

/-- `DeleteHealthMonitorInDB.revert`: mark the health monitor ERROR.  The
source signature is `revert(self, health_mon, *args, **kwargs)`: the
taskflow `result` keyword stays in `kwargs` and is never inspected, and
the update is not wrapped in any `try/except`. -/
def DeleteHealthMonitorInDB.revert (hm_id : String) (result : RevertInput Unit)
    (φ : Oracle) : List RepoCall × Option ExnKind :=
  single φ (RepoCall.hmUpdate hm_id (some constants.ERROR) none)

/-- `DeleteHealthMonitorInDBByPool.revert`: fetch the pool (whose stored
health monitor has id `hm_of_pool`), then run the superclass revert on it;
neither step is guarded by a `try/except`. -/
def DeleteHealthMonitorInDBByPool.revert (pool_id hm_of_pool : String)
    (result : RevertInput Unit) (φ : Oracle) : List RepoCall × Option ExnKind :=
  andThen (single φ (RepoCall.poolGet pool_id))
    (DeleteHealthMonitorInDB.revert hm_of_pool result φ)

/-- `DeleteMemberInDB.execute`: delete the member; no exception is
caught. -/
def DeleteMemberInDB.execute (member_id : String) (φ : Oracle) :
    List RepoCall × Option ExnKind :=
  single φ (RepoCall.memberDelete member_id)

/-- `DeleteMemberInDB.revert`: mark the member ERROR inside a catch-all
`try/except`; the taskflow result stays in `kwargs`, uninspected. -/
def DeleteMemberInDB.revert (member_id : String) (result : RevertInput Unit) :
    List RepoCall × Option ExnKind :=
  trySwallow (RepoCall.memberUpdate member_id (some constants.ERROR) none)

/-- `_MarkAmphoraRoleAndPriorityInDB._execute`: one update carrying both
the role and the vrrp_priority keyword. -/
def MarkAmphoraRoleAndPriorityInDB.executeImpl (amphora_id : String)
    (amp_role : String) (vrrp_priority : Option Nat) (φ : Oracle) :
    List RepoCall × Option ExnKind :=
  single φ (RepoCall.amphoraRoleUpdate amphora_id (some amp_role) vrrp_priority)

/-- `_MarkAmphoraRoleAndPriorityInDB._revert`: no-op on the failure
marker, otherwise one update clearing role and vrrp_priority together,
inside a catch-all `try/except`. -/
def MarkAmphoraRoleAndPriorityInDB.revertImpl (result : RevertInput Unit)
    (amphora_id : String) : List RepoCall × Option ExnKind :=
  match result with
  | RevertInput.failure => ([], none)
  | RevertInput.success _ =>
    trySwallow (RepoCall.amphoraRoleUpdate amphora_id none none)

/-- `MarkAmphoraMasterInDB.execute`. -/
def MarkAmphoraMasterInDB.execute (amphora_id : String) (φ : Oracle) :
    List RepoCall × Option ExnKind :=
  MarkAmphoraRoleAndPriorityInDB.executeImpl amphora_id constants.ROLE_MASTER
    (some constants.ROLE_MASTER_PRIORITY) φ

/-- `MarkAmphoraMasterInDB.revert`. -/
def MarkAmphoraMasterInDB.revert (result : RevertInput Unit) (amphora_id : String) :
    List RepoCall × Option ExnKind :=
  MarkAmphoraRoleAndPriorityInDB.revertImpl result amphora_id

/-- `MarkAmphoraBackupInDB.execute`. -/
def MarkAmphoraBackupInDB.execute (amphora_id : String) (φ : Oracle) :
    List RepoCall × Option ExnKind :=
  MarkAmphoraRoleAndPriorityInDB.executeImpl amphora_id constants.ROLE_BACKUP
    (some constants.ROLE_BACKUP_PRIORITY) φ

/-- `MarkAmphoraBackupInDB.revert`. -/
def MarkAmphoraBackupInDB.revert (result : RevertInput Unit) (amphora_id : String) :
    List RepoCall × Option ExnKind :=
  MarkAmphoraRoleAndPriorityInDB.revertImpl result amphora_id

/-- `MarkAmphoraStandAloneInDB.execute` (vrrp_priority is passed as
`None`). -/
def MarkAmphoraStandAloneInDB.execute (amphora_id : String) (φ : Oracle) :
    List RepoCall × Option ExnKind :=
  MarkAmphoraRoleAndPriorityInDB.executeImpl amphora_id constants.ROLE_STANDALONE
    none φ

/-- `MarkAmphoraStandAloneInDB.revert`. -/
def MarkAmphoraStandAloneInDB.revert (result : RevertInput Unit) (amphora_id : String) :
    List RepoCall × Option ExnKind :=
  MarkAmphoraRoleAndPriorityInDB.revertImpl result amphora_id

/-!  The load-balancer subtree the cascading status walk traverses, as the
`loadbalancer_repo.get` of `MarkLBActiveInDB` returns it. -/

/-- A member row, as seen by the status walk. -/
structure MemberM where
  id : String
deriving DecidableEq, Repr

/-- A health monitor row, as seen by the status walk. -/
structure HealthMonitorM where
  id : String
deriving DecidableEq, Repr

/-- A pool with its optional health monitor and its members. -/
structure PoolM where
  id : String
  health_monitor : Option HealthMonitorM
  members : List MemberM
deriving DecidableEq, Repr

/-- An l7rule row, as seen by the status walk. -/
structure L7RuleM where
  id : String
deriving DecidableEq, Repr

/-- An l7policy with its l7rules and its optional redirect pool. -/
structure L7PolicyM where
  id : String
  l7rules : List L7RuleM
  redirect_pool : Option PoolM
deriving DecidableEq, Repr

/-- A listener with its l7policies and its optional default pool. -/
structure ListenerM where
  id : String
  l7policies : List L7PolicyM
  default_pool : Option PoolM
deriving DecidableEq, Repr

/-- The load balancer record with its owned listeners. -/
structure LoadBalancerM where
  id : String
  listeners : List ListenerM
deriving DecidableEq, Repr

/-- `MarkLBActiveInDB._mark_member_status`. -/
def MarkLBActiveInDB.mark_member_status (φ : Oracle) (m : MemberM) (status : String) :
    List RepoCall × Option ExnKind :=
  single φ (RepoCall.memberUpdate m.id (some status) none)

/-- `MarkLBActiveInDB._mark_hm_status`. -/
def MarkLBActiveInDB.mark_hm_status (φ : Oracle) (hm : HealthMonitorM) (status : String) :
    List RepoCall × Option ExnKind :=
  single φ (RepoCall.hmUpdate hm.id (some status) none)

/-- `MarkLBActiveInDB._mark_pool_status`: pool row, then its health
monitor if present, then its members in order. -/
def MarkLBActiveInDB.mark_pool_status (φ : Oracle) (p : PoolM) (status : String) :
    List RepoCall × Option ExnKind :=
  andThen (single φ (RepoCall.poolUpdate p.id status))
    (andThen (markOpt (fun hm => MarkLBActiveInDB.mark_hm_status φ hm status)
        p.health_monitor)
      (markList (fun m => MarkLBActiveInDB.mark_member_status φ m status) p.members))

/-- `MarkLBActiveInDB._mark_l7rule_status`. -/
def MarkLBActiveInDB.mark_l7rule_status (φ : Oracle) (r : L7RuleM) (status : String) :
    List RepoCall × Option ExnKind :=
  single φ (RepoCall.l7ruleUpdate r.id (some status) none)

/-- `MarkLBActiveInDB._mark_l7policy_status`: policy row, then its
l7rules, then its redirect pool if present. -/
def MarkLBActiveInDB.mark_l7policy_status (φ : Oracle) (pol : L7PolicyM) (status : String) :
    List RepoCall × Option ExnKind :=
  andThen (single φ (RepoCall.l7policyUpdate pol.id status))
    (andThen (markList (fun r => MarkLBActiveInDB.mark_l7rule_status φ r status)
        pol.l7rules)
      (markOpt (fun p => MarkLBActiveInDB.mark_pool_status φ p status)
        pol.redirect_pool))

/-- `MarkLBActiveInDB._mark_listener_status`: listener row, then its
l7policies, then its default pool if present. -/
def MarkLBActiveInDB.mark_listener_status (φ : Oracle) (l : ListenerM) (status : String) :
    List RepoCall × Option ExnKind :=
  andThen (single φ (RepoCall.listenerUpdate l.id status))
    (andThen (markList (fun pol => MarkLBActiveInDB.mark_l7policy_status φ pol status)
        l.l7policies)
      (markOpt (fun p => MarkLBActiveInDB.mark_pool_status φ p status)
        l.default_pool))

/-- Modelled from the spec: `task_utils.mark_loadbalancer_prov_status_error`
lives in `octavia/controller/worker/task_utils.py`, which is not under
`src/`; per the spec's swallow-and-log compensation pattern it updates the
load balancer's provisioning_status to ERROR and catches and logs any
exception, never raising. -/
def task_utils.mark_loadbalancer_prov_status_error (lb_id : String) :
    List RepoCall × Option ExnKind :=
  trySwallow (RepoCall.lbUpdate lb_id constants.ERROR)

/-- `MarkLBActiveInDB.execute`: when `mark_subobjects` is set, fetch the
load balancer and walk every listener subtree marking it ACTIVE — with no
`try/except` anywhere, so the first failing sub-update aborts the walk and
propagates — and finally mark the load balancer itself ACTIVE. -/
def MarkLBActiveInDB.execute (mark_subobjects : Bool) (φ : Oracle) (lb_id : String)
    (db_lb : LoadBalancerM) : List RepoCall × Option ExnKind :=
  let sub :=
    if mark_subobjects then
      andThen (single φ (RepoCall.lbGet lb_id))
        (markList (fun l => MarkLBActiveInDB.mark_listener_status φ l constants.ACTIVE)
          db_lb.listeners)
    else ([], none)
  andThen sub (single φ (RepoCall.lbUpdate lb_id constants.ACTIVE))

/-- The per-listener loop of `MarkLBActiveInDB.revert`: each listener's
subtree walk is wrapped in its own `try/except Exception`, so a failure
inside one listener's subtree is swallowed and the loop continues with the
next listener. -/
def MarkLBActiveInDB.revertLoop (φ : Oracle) : List ListenerM → List RepoCall
  | [] => []
  | l :: ls =>
    (MarkLBActiveInDB.mark_listener_status φ l constants.ERROR).1 ++
      MarkLBActiveInDB.revertLoop φ ls

/-- `MarkLBActiveInDB.revert`: when `mark_subobjects` is set, fetch the
load balancer (unguarded — a failing get propagates) and walk the listener
subtrees marking them ERROR with a per-listener `try/except`; finally mark
the load balancer ERROR through the never-raising task_utils helper. -/
def MarkLBActiveInDB.revert (mark_subobjects : Bool) (φ : Oracle) (lb_id : String)
    (db_lb : LoadBalancerM) : List RepoCall × Option ExnKind :=
  let sub :=
    if mark_subobjects then
      andThen (single φ (RepoCall.lbGet lb_id))
        (MarkLBActiveInDB.revertLoop φ db_lb.listeners, none)
    else ([], none)
  andThen sub (task_utils.mark_loadbalancer_prov_status_error lb_id)

/-!  `MarkLBAndListenersActiveInDB` and the per-entity mark-ACTIVE tasks. -/

/-- A listener provider dict as passed to
`MarkLBAndListenersActiveInDB` (`constants.LISTENER_ID`,
`constants.LOADBALANCER_ID` keys). -/
structure ListenerDict where
  listener_id : String
  loadbalancer_id : String
deriving DecidableEq, Repr

/-- Python truthiness of an optional string argument (`None` and the
empty string are falsy). -/
def truthy : Option String → Bool
  | none => false
  | some s => !s.isEmpty

/-- Modelled from the spec: the repository primitive
`ListenerRepository.prov_status_active_if_not_error` lives in
`octavia/db/repositories.py`, which is not under `src/`; per its name and
the repository-adapter contract it sets the listener's provisioning_status
to ACTIVE unless the current status is ERROR, which is kept. -/
def prov_status_active_if_not_error (status : String) : String :=
  if status = constants.ERROR then status else constants.ACTIVE

/-- The effect of one `listener_repo.prov_status_active_if_not_error`
call on the listener-status store. -/
def MarkLBAndListenersActiveInDB.applyListener (σ : String → String)
    (l : ListenerDict) : String → String :=
  fun id => if id = l.listener_id then prov_status_active_if_not_error (σ id) else σ id

/-- `MarkLBAndListenersActiveInDB.execute` over a listener-status store
`σ` (listener id to provisioning_status): resolve the load balancer id
(the argument if truthy, else the first listener's, else none), mark the
load balancer ACTIVE if an id was resolved, then apply
`prov_status_active_if_not_error` to every listener in the list.  Returns
the issued calls and the updated listener-status store. -/
def MarkLBAndListenersActiveInDB.execute (loadbalancer_id : Option String)
    (listeners : List ListenerDict) (σ : String → String) :
    List RepoCall × (String → String) :=
  let lb_id : Option String :=
    if truthy loadbalancer_id then loadbalancer_id
    else
      match listeners with
      | [] => none
      | l :: _ => some l.loadbalancer_id
  let lbCalls : List RepoCall :=
    match lb_id with
    | some i => [RepoCall.lbUpdate i constants.ACTIVE]
    | none => []
  (lbCalls ++ listeners.map (fun l => RepoCall.listenerProvActiveIfNotError l.listener_id),
   listeners.foldl MarkLBAndListenersActiveInDB.applyListener σ)

/-- `MarkHealthMonitorActiveInDB.execute`: fetch the stored health
monitor (whose `enabled` flag is `enabled`), then one update setting
provisioning_status ACTIVE together with operating_status derived from
that flag. -/
def MarkHealthMonitorActiveInDB.execute (hm_id : String) (enabled : Bool)
    (φ : Oracle) : List RepoCall × Option ExnKind :=
  andThen (single φ (RepoCall.hmGet hm_id))
    (single φ (RepoCall.hmUpdate hm_id (some constants.ACTIVE)
      (some (if enabled then constants.ONLINE else constants.OFFLINE))))

/-- `MarkL7RuleActiveInDB.execute`: fetch the stored l7rule (whose
`enabled` flag is `enabled`), then one update setting provisioning_status
ACTIVE together with operating_status derived from that flag. -/
def MarkL7RuleActiveInDB.execute (l7rule_id : String) (enabled : Bool)
    (φ : Oracle) : List RepoCall × Option ExnKind :=
  andThen (single φ (RepoCall.l7ruleGet l7rule_id))
    (single φ (RepoCall.l7ruleUpdate l7rule_id (some constants.ACTIVE)
      (some (if enabled then constants.ONLINE else constants.OFFLINE))))

/-- `MarkMemberActiveInDB.execute`: a single update setting only
provisioning_status ACTIVE — no get of the stored member and no
operating_status keyword. -/
def MarkMemberActiveInDB.execute (member_id : String) (φ : Oracle) :
    List RepoCall × Option ExnKind :=
  single φ (RepoCall.memberUpdate member_id (some constants.ACTIVE) none)

/-!  The quota ledger tasks.  A locked session buffers decrements until
commit; on any failure inside the `try` block the session is rolled back,
so the published counters are unchanged. -/

/-- Per-project in-use quota counters. -/
def Quotas := QuotaKind → Int

/-- Apply one `decrement_quota(kind, quantity)` to the counters. -/
def decQ (q : Quotas) (k : QuotaKind) (n : Nat) : Quotas :=
  fun k' => if k' = k then q k' - n else q k'

/-- The trailing `lock_session.commit()` of a forward decrement task: on
success publish the buffered counters `qnew`, on failure roll back to the
original counters `q0` and re-raise. -/
def commitStep (φ : Oracle) (pre : List RepoCall) (qnew q0 : Quotas) :
    List RepoCall × Option ExnKind × Quotas :=
  match φ RepoCall.commit with
  | some e => (pre ++ [RepoCall.commit, RepoCall.rollback], some e, q0)
  | none => (pre ++ [RepoCall.commit], none, qnew)

/-- `DecrementHealthMonitorQuota.execute`. -/
def DecrementHealthMonitorQuota.execute (φ : Oracle) (project_id : String)
    (q : Quotas) : List RepoCall × Option ExnKind × Quotas :=
  let c := RepoCall.decrementQuota QuotaKind.healthMonitor project_id 1
  match φ c with
  | some e => ([c, RepoCall.rollback], some e, q)
  | none => commitStep φ [c] (decQ q QuotaKind.healthMonitor 1) q

/-- `DecrementLoadBalancerQuota.execute`. -/
def DecrementLoadBalancerQuota.execute (φ : Oracle) (project_id : String)
    (q : Quotas) : List RepoCall × Option ExnKind × Quotas :=
  let c := RepoCall.decrementQuota QuotaKind.loadBalancer project_id 1
  match φ c with
  | some e => ([c, RepoCall.rollback], some e, q)
  | none => commitStep φ [c] (decQ q QuotaKind.loadBalancer 1) q

/-- One independent re-increment session of a quota `revert`: a
`check_quota_met` (modelled from the spec: re-validates and increments the
counter) followed by `commit`, rolled back on its own when the check
raises.  The calls attempted are returned; the inner `try/except` means
the session never raises. -/
def checkAndCommit (φ : Oracle) (kind : QuotaKind) (project_id : String) :
    List RepoCall :=
  let c := RepoCall.checkQuotaMet kind project_id
  match φ c with
  | some _ => [c, RepoCall.rollback]
  | none => [c, RepoCall.commit]

/-- `DecrementHealthMonitorQuota.revert`: nothing when this task's own
execute failed, otherwise one independent re-increment session; the outer
`try/except` means revert never raises. -/
def DecrementHealthMonitorQuota.revert (φ : Oracle) (project_id : String)
    (result : RevertInput Unit) : List RepoCall :=
  match result with
  | RevertInput.failure => []
  | RevertInput.success _ => checkAndCommit φ QuotaKind.healthMonitor project_id

/-- The precomputed pool child counts (`{'HM': …, 'member': …}`) produced
by `CountPoolChildrenForQuota` before the cascade delete. -/
structure PoolChildCount where
  HM : Nat
  member : Nat
deriving DecidableEq, Repr

/-- The member-decrement stage of `DecrementPoolQuota.execute`, followed
by the commit: the member decrement is issued only when the precomputed
member count is positive, with the whole count as its quantity. -/
def DecrementPoolQuota.memberStep (φ : Oracle) (project_id : String) (n : Nat)
    (pre : List RepoCall) (qcur q0 : Quotas) :
    List RepoCall × Option ExnKind × Quotas :=
  if 0 < n then
    let c := RepoCall.decrementQuota QuotaKind.member project_id n
    match φ c with
    | some e => (pre ++ [c, RepoCall.rollback], some e, q0)
    | none => commitStep φ (pre ++ [c]) (decQ qcur QuotaKind.member n) q0
  else commitStep φ pre qcur q0

/-- The health-monitor-decrement stage of `DecrementPoolQuota.execute`:
issued only when the precomputed HM count is positive. -/
def DecrementPoolQuota.hmStep (φ : Oracle) (project_id : String)
    (cc : PoolChildCount) (pre : List RepoCall) (qcur q0 : Quotas) :
    List RepoCall × Option ExnKind × Quotas :=
  if 0 < cc.HM then
    let c := RepoCall.decrementQuota QuotaKind.healthMonitor project_id 1
    match φ c with
    | some e => (pre ++ [c, RepoCall.rollback], some e, q0)
    | none =>
      DecrementPoolQuota.memberStep φ project_id cc.member (pre ++ [c])
        (decQ qcur QuotaKind.healthMonitor 1) q0
  else DecrementPoolQuota.memberStep φ project_id cc.member pre qcur q0

/-- `DecrementPoolQuota.execute`: the pool decrement and the cascaded
child decrements all run on one locked session and are published by a
single commit; any failure rolls the whole session back and re-raises. -/
def DecrementPoolQuota.execute (φ : Oracle) (project_id : String)
    (cc : PoolChildCount) (q : Quotas) : List RepoCall × Option ExnKind × Quotas :=
  let c := RepoCall.decrementQuota QuotaKind.pool project_id 1
  match φ c with
  | some e => ([c, RepoCall.rollback], some e, q)
  | none => DecrementPoolQuota.hmStep φ project_id cc [c] (decQ q QuotaKind.pool 1) q

/-- `n` repetitions of a call block (the `for i in range(n)` member
re-increment loop of `DecrementPoolQuota.revert`). -/
def repeatCalls (n : Nat) (xs : List RepoCall) : List RepoCall :=
  match n with
  | 0 => []
  | k + 1 => xs ++ repeatCalls k xs

/-- `DecrementPoolQuota.revert`: nothing when this task's own execute
failed; otherwise one independent re-increment session for the pool, one
for the health monitor when the precomputed HM count is positive, and one
per member unit — each session committed or rolled back on its own. -/
def DecrementPoolQuota.revert (φ : Oracle) (project_id : String)
    (cc : PoolChildCount) (result : RevertInput Unit) : List RepoCall :=
  match result with
  | RevertInput.failure => []
  | RevertInput.success _ =>
    checkAndCommit φ QuotaKind.pool project_id ++
      (if 0 < cc.HM then checkAndCommit φ QuotaKind.healthMonitor project_id
       else []) ++
      repeatCalls cc.member (checkAndCommit φ QuotaKind.member project_id)

/-!  Concrete repository behaviours and states used by closed theorems. -/

/-- A concrete quota-counter state. -/
def q10 : Quotas := fun _ => 10

/-- A repository behaviour where the ERROR-marking update of health
monitor hm1 raises (a database failure during compensation). -/
def failHmUpdateOracle : Oracle := fun c =>
  if c = RepoCall.hmUpdate "hm1" (some constants.ERROR) none then
    some (ExnKind.other "db connection lost")
  else none

/-!  Claim theorems. -/

/-- C1, counterexample: called with the workflow engine's failure marker,
`DeleteHealthMonitorInDB.revert` still performs a repository call (it
unconditionally marks the health monitor ERROR), so the claim that every
task's revert is a repository-free no-op on the failure marker is false. -/
theorem deleteHMRevert_failure_marker_still_calls_repo :
    (DeleteHealthMonitorInDB.revert "hm1" RevertInput.failure noFail).1 =
      [RepoCall.hmUpdate "hm1" (some constants.ERROR) none]
  ∧ (DeleteHealthMonitorInDB.revert "hm1" RevertInput.failure noFail).1 ≠ [] := by
  exact ⟨rfl, by simp [DeleteHealthMonitorInDB.revert, single]⟩

/-- C1, amended: the reverts that inspect their own result —
`CreateAmphoraInDB`, the amphora role tasks, and the quota decrement
tasks — perform no repository call (hence change no persistent state)
when handed the failure marker, while `DeleteHealthMonitorInDB.revert`
ignores the marker and always issues its ERROR-marking update. -/
theorem revert_failure_marker_noop_except_delete_hm (φ : Oracle)
    (hm amp pid : String) (cc : PoolChildCount) :
    (CreateAmphoraInDB.revert RevertInput.failure).1 = []
  ∧ (MarkAmphoraMasterInDB.revert RevertInput.failure amp).1 = []
  ∧ (MarkAmphoraBackupInDB.revert RevertInput.failure amp).1 = []
  ∧ (MarkAmphoraStandAloneInDB.revert RevertInput.failure amp).1 = []
  ∧ DecrementHealthMonitorQuota.revert φ pid RevertInput.failure = []
  ∧ DecrementPoolQuota.revert φ pid cc RevertInput.failure = []
  ∧ effects φ (CreateAmphoraInDB.revert RevertInput.failure).1 = []
  ∧ (DeleteHealthMonitorInDB.revert hm RevertInput.failure φ).1 =
      [RepoCall.hmUpdate hm (some constants.ERROR) none] := by
  exact ⟨rfl, rfl, rfl, rfl, rfl, rfl, rfl, rfl⟩

/-- C2, counterexample: when the repository update raises during
compensation, `DeleteHealthMonitorInDB.revert` propagates the exception to
the caller — its compensating update is outside any `try/except` — so the
claim that every task's revert swallows repository exceptions is false. -/
theorem deleteHMRevert_raises_on_update_failure :
    (DeleteHealthMonitorInDB.revert "hm1" (RevertInput.success ())
        failHmUpdateOracle).2 =
      some (ExnKind.other "db connection lost") := by
  simp [DeleteHealthMonitorInDB.revert, single, failHmUpdateOracle]

/-- C2, amended: the reverts that wrap their compensation in a catch-all
`try/except` (`DeleteMemberInDB`, `CreateAmphoraInDB`, the amphora role
tasks) never raise, for any repository behaviour; but
`DeleteHealthMonitorInDB.revert` raises exactly when its ERROR-marking
update raises, and `DeleteHealthMonitorInDBByPool.revert` additionally
propagates a failure of its unguarded pool get. -/
theorem revert_exception_swallowing_policy (φ : Oracle) (mid hm pool amp : String)
    (res : RevertInput Unit) (resS : RevertInput String) :
    (DeleteMemberInDB.revert mid res).2 = none
  ∧ (CreateAmphoraInDB.revert resS).2 = none
  ∧ (MarkAmphoraMasterInDB.revert res amp).2 = none
  ∧ (DeleteHealthMonitorInDB.revert hm res φ).2 =
      φ (RepoCall.hmUpdate hm (some constants.ERROR) none)
  ∧ (DeleteHealthMonitorInDBByPool.revert pool hm res φ).2 =
      (φ (RepoCall.poolGet pool)).orElse
        (fun _ => φ (RepoCall.hmUpdate hm (some constants.ERROR) none)) := by
  refine ⟨rfl, ?_, ?_, rfl, ?_⟩
  · cases resS <;> rfl
  · cases res <;> rfl
  · cases h : φ (RepoCall.poolGet pool) <;>
      simp [DeleteHealthMonitorInDBByPool.revert, DeleteHealthMonitorInDB.revert,
        andThen, single, h, Option.orElse]

/-- Each independent re-increment session attempts exactly one
`check_quota_met` call, whatever the repository does. -/
theorem checkAndCommit_filter_isCheck (φ : Oracle) (k : QuotaKind) (pid : String) :
    (checkAndCommit φ k pid).filter isCheck = [RepoCall.checkQuotaMet k pid] := by
  unfold checkAndCommit
  cases h : φ (RepoCall.checkQuotaMet k pid) <;> simp [h, isCheck]

theorem repeatCalls_filter (p : RepoCall → Bool) (n : Nat) (xs : List RepoCall) :
    (repeatCalls n xs).filter p = repeatCalls n (xs.filter p) := by
  induction n with
  | zero => rfl
  | succ k ih => simp [repeatCalls, List.filter_append, ih]

/-- C3: with precomputed child count HM = 1, member = 3, the forward pass
of `DecrementPoolQuota.execute` decrements Pool, HealthMonitor, and Member
(quantity 3) in one locked session closed by a single commit; and its
revert (given a non-failure result) runs an independent check-and-commit
session for the Pool, one for the HealthMonitor, and one per member unit —
so, under any repository behaviour, exactly 1 + 1 + 3 `check_quota_met`
attempts are issued. -/
theorem decrementPoolQuota_cascade_and_revert_counts :
    (DecrementPoolQuota.execute noFail "proj" ⟨1, 3⟩ q10).1 =
      [RepoCall.decrementQuota QuotaKind.pool "proj" 1,
       RepoCall.decrementQuota QuotaKind.healthMonitor "proj" 1,
       RepoCall.decrementQuota QuotaKind.member "proj" 3,
       RepoCall.commit]
  ∧ DecrementPoolQuota.revert noFail "proj" ⟨1, 3⟩ (RevertInput.success ()) =
      [RepoCall.checkQuotaMet QuotaKind.pool "proj", RepoCall.commit,
       RepoCall.checkQuotaMet QuotaKind.healthMonitor "proj", RepoCall.commit,
       RepoCall.checkQuotaMet QuotaKind.member "proj", RepoCall.commit,
       RepoCall.checkQuotaMet QuotaKind.member "proj", RepoCall.commit,
       RepoCall.checkQuotaMet QuotaKind.member "proj", RepoCall.commit]
  ∧ ∀ φ : Oracle,
      (DecrementPoolQuota.revert φ "proj" ⟨1, 3⟩
          (RevertInput.success ())).filter isCheck =
        [RepoCall.checkQuotaMet QuotaKind.pool "proj",
         RepoCall.checkQuotaMet QuotaKind.healthMonitor "proj",
         RepoCall.checkQuotaMet QuotaKind.member "proj",
         RepoCall.checkQuotaMet QuotaKind.member "proj",
         RepoCall.checkQuotaMet QuotaKind.member "proj"] := by
  refine ⟨rfl, rfl, ?_⟩
  intro φ
  simp [DecrementPoolQuota.revert, List.filter_append,
    checkAndCommit_filter_isCheck, repeatCalls_filter, repeatCalls]

/-- C8: each amphora role task sets role and vrrp_priority in one update
(MASTER and BACKUP with their priorities, STANDALONE with priority None),
and its revert — after a successful execute — clears role and
vrrp_priority together in one single update, while the failure marker
produces no call at all; role is never cleared without vrrp_priority or
vice versa. -/
theorem amphora_role_revert_clears_role_and_priority_together
    (amp : String) (res : RevertInput Unit) (φ : Oracle) :
    (MarkAmphoraMasterInDB.execute amp φ).1 =
      [RepoCall.amphoraRoleUpdate amp (some constants.ROLE_MASTER)
        (some constants.ROLE_MASTER_PRIORITY)]
  ∧ (MarkAmphoraBackupInDB.execute amp φ).1 =
      [RepoCall.amphoraRoleUpdate amp (some constants.ROLE_BACKUP)
        (some constants.ROLE_BACKUP_PRIORITY)]
  ∧ (MarkAmphoraStandAloneInDB.execute amp φ).1 =
      [RepoCall.amphoraRoleUpdate amp (some constants.ROLE_STANDALONE) none]
  ∧ (MarkAmphoraMasterInDB.revert res amp).1 =
      (if res = RevertInput.failure then []
       else [RepoCall.amphoraRoleUpdate amp none none])
  ∧ (MarkAmphoraBackupInDB.revert res amp).1 =
      (if res = RevertInput.failure then []
       else [RepoCall.amphoraRoleUpdate amp none none])
  ∧ (MarkAmphoraStandAloneInDB.revert res amp).1 =
      (if res = RevertInput.failure then []
       else [RepoCall.amphoraRoleUpdate amp none none]) := by
  refine ⟨rfl, rfl, rfl, ?_, ?_, ?_⟩ <;>
    cases res <;>
      simp [MarkAmphoraMasterInDB.revert, MarkAmphoraBackupInDB.revert,
        MarkAmphoraStandAloneInDB.revert,
        MarkAmphoraRoleAndPriorityInDB.revertImpl, trySwallow]

/-- C5, counterexample: `MarkMemberActiveInDB.execute` issues a single
update whose only keyword is provisioning_status ACTIVE — it neither reads
the stored member's enabled flag nor carries any operating_status — so the
claim that every entity kind's mark-ACTIVE task sets the derived
operating_status in the same update is false for members. -/
theorem markMemberActive_sets_no_operating_status :
    (MarkMemberActiveInDB.execute "m1" noFail).1 =
      [RepoCall.memberUpdate "m1" (some constants.ACTIVE) none]
  ∧ opField (RepoCall.memberUpdate "m1" (some constants.ACTIVE) none) = none :=
  ⟨rfl, rfl⟩

/-- C5, amended: the mark-ACTIVE tasks for health monitors and l7rules
fetch the stored entity and set operating_status derived from its enabled
flag (ONLINE if enabled else OFFLINE) in the same update that sets
provisioning_status ACTIVE, never taking it from caller input; the member
mark-ACTIVE task sets only provisioning_status, leaving operating_status
untouched. -/
theorem markActive_operating_status_policy (φ : Oracle) (id : String)
    (enabled : Bool) :
    (φ (RepoCall.hmGet id) = none →
      (MarkHealthMonitorActiveInDB.execute id enabled φ).1 =
        [RepoCall.hmGet id,
         RepoCall.hmUpdate id (some constants.ACTIVE)
           (some (if enabled then constants.ONLINE else constants.OFFLINE))])
  ∧ (φ (RepoCall.l7ruleGet id) = none →
      (MarkL7RuleActiveInDB.execute id enabled φ).1 =
        [RepoCall.l7ruleGet id,
         RepoCall.l7ruleUpdate id (some constants.ACTIVE)
           (some (if enabled then constants.ONLINE else constants.OFFLINE))])
  ∧ (MarkMemberActiveInDB.execute id φ).1 =
      [RepoCall.memberUpdate id (some constants.ACTIVE) none] := by
  refine ⟨?_, ?_, rfl⟩ <;> intro h <;>
    simp [MarkHealthMonitorActiveInDB.execute, MarkL7RuleActiveInDB.execute,
      andThen, single, h]

/-- C5 witness: the amended theorem instantiated at an enabled health
monitor under the all-succeed repository. -/
theorem markActive_operating_status_policy_witness :
    (MarkHealthMonitorActiveInDB.execute "hm1" true noFail).1 =
      [RepoCall.hmGet "hm1",
       RepoCall.hmUpdate "hm1" (some constants.ACTIVE) (some constants.ONLINE)]
  ∧ noFail (RepoCall.hmGet "hm1") = none := by
  refine ⟨?_, rfl⟩
  have h := (markActive_operating_status_policy noFail "hm1" true).1 rfl
  simpa using h

/-- A repository behaviour where the member m404 does not exist: its
delete raises `NoResultFound`. -/
def absentMemberOracle : Oracle := fun c =>
  if c = RepoCall.memberDelete "m404" then some ExnKind.noResultFound else none

/-- A repository behaviour where the amphora amp404 has no AmphoraHealth
record: its delete raises `NoResultFound`. -/
def absentAmpHealthOracle : Oracle := fun c =>
  if c = RepoCall.ampHealthDelete "amp404" then some ExnKind.noResultFound else none

/-- C6, counterexample: `DeleteMemberInDB.execute` wraps its repository
delete in no `try/except`, so when the target member record is absent the
`NoResultFound` raised by the delete propagates instead of being treated
as success — the claim is false for this delete task. -/
theorem deleteMember_absent_record_raises :
    (DeleteMemberInDB.execute "m404" absentMemberOracle).2 =
      some ExnKind.noResultFound := by
  simp [DeleteMemberInDB.execute, single, absentMemberOracle]

/-- C6, amended: the delete operations that guard NOT-FOUND — disabling
amphora health supervision (which also treats `UnmappedInstanceError` as
absence) and `DeleteHealthMonitorInDB.execute` — complete successfully
with no persistent-state change when the target record is absent;
`DeleteMemberInDB.execute` has no such guard and propagates the
repository's NOT-FOUND exception. -/
theorem delete_not_found_policy (aid hid mid : String) (φ : Oracle) :
    (φ (RepoCall.ampHealthDelete aid) = some ExnKind.noResultFound →
      BaseDatabaseTask.delete_from_amp_health aid φ =
        ([RepoCall.ampHealthDelete aid], none)
      ∧ effects φ (BaseDatabaseTask.delete_from_amp_health aid φ).1 = [])
  ∧ (φ (RepoCall.ampHealthDelete aid) = some ExnKind.unmappedInstanceError →
      BaseDatabaseTask.delete_from_amp_health aid φ =
        ([RepoCall.ampHealthDelete aid], none))
  ∧ (φ (RepoCall.hmDelete hid) = some ExnKind.noResultFound →
      DeleteHealthMonitorInDB.execute hid φ = ([RepoCall.hmDelete hid], none)
      ∧ effects φ (DeleteHealthMonitorInDB.execute hid φ).1 = [])
  ∧ (∀ e, φ (RepoCall.memberDelete mid) = some e →
      (DeleteMemberInDB.execute mid φ).2 = some e) := by
  refine ⟨?_, ?_, ?_, ?_⟩
  · intro h
    constructor <;>
      simp [BaseDatabaseTask.delete_from_amp_health, effects, h]
  · intro h
    simp [BaseDatabaseTask.delete_from_amp_health, h]
  · intro h
    constructor <;>
      simp [DeleteHealthMonitorInDB.execute, effects, h]
  · intro e h
    simp [DeleteMemberInDB.execute, single, h]

/-- C6 witness: the amended theorem instantiated at an amphora with no
AmphoraHealth record, a health monitor already absent, and a member whose
delete reports NOT-FOUND. -/
theorem delete_not_found_policy_witness :
    BaseDatabaseTask.delete_from_amp_health "amp404" absentAmpHealthOracle =
      ([RepoCall.ampHealthDelete "amp404"], none)
  ∧ (DeleteMemberInDB.execute "m404" absentMemberOracle).2 =
      some ExnKind.noResultFound := by
  refine ⟨((delete_not_found_policy "amp404" "hm" "m404" absentAmpHealthOracle).1 ?_).1,
         (delete_not_found_policy "amp404" "hm" "m404" absentMemberOracle).2.2.2
           ExnKind.noResultFound ?_⟩ <;>
    simp [absentAmpHealthOracle, absentMemberOracle]

/-- A repository behaviour where every quota decrement fails. -/
def failDecOracle : Oracle := fun c =>
  match c with
  | RepoCall.decrementQuota _ _ _ => some (ExnKind.other "quota decrement failed")
  | _ => none

/-- C7: when the decrement inside the exclusive-locking session of a
forward quota-decrement task fails, the session is rolled back — the
returned counters are exactly the initial ones — and the same exception is
re-raised to the caller, for both the load balancer and the health monitor
decrement tasks. -/
theorem decrement_quota_forward_failure_policy (φ : Oracle) (pid : String)
    (q : Quotas) (e e' : ExnKind) :
    (φ (RepoCall.decrementQuota QuotaKind.loadBalancer pid 1) = some e →
      DecrementLoadBalancerQuota.execute φ pid q =
        ([RepoCall.decrementQuota QuotaKind.loadBalancer pid 1, RepoCall.rollback],
         some e, q))
  ∧ (φ (RepoCall.decrementQuota QuotaKind.healthMonitor pid 1) = some e' →
      DecrementHealthMonitorQuota.execute φ pid q =
        ([RepoCall.decrementQuota QuotaKind.healthMonitor pid 1, RepoCall.rollback],
         some e', q)) := by
  constructor <;> intro h <;>
    simp [DecrementLoadBalancerQuota.execute, DecrementHealthMonitorQuota.execute, h]

/-- C7 witness: both forward decrements under a repository where the
decrement call fails. -/
theorem decrement_quota_forward_failure_policy_witness :
    DecrementLoadBalancerQuota.execute failDecOracle "proj" q10 =
      ([RepoCall.decrementQuota QuotaKind.loadBalancer "proj" 1, RepoCall.rollback],
       some (ExnKind.other "quota decrement failed"), q10)
  ∧ DecrementHealthMonitorQuota.execute failDecOracle "proj" q10 =
      ([RepoCall.decrementQuota QuotaKind.healthMonitor "proj" 1, RepoCall.rollback],
       some (ExnKind.other "quota decrement failed"), q10) := by
  exact ⟨(decrement_quota_forward_failure_policy failDecOracle "proj" q10
            (ExnKind.other "quota decrement failed")
            (ExnKind.other "quota decrement failed")).1 rfl,
         (decrement_quota_forward_failure_policy failDecOracle "proj" q10
            (ExnKind.other "quota decrement failed")
            (ExnKind.other "quota decrement failed")).2 rfl⟩

/-- The counters after a fully successful `DecrementPoolQuota.execute`:
pool minus one, health monitor minus one when the precomputed HM count is
positive, member minus the member count when positive. -/
def poolDecTarget (q : Quotas) (cc : PoolChildCount) : Quotas :=
  let q1 := decQ q QuotaKind.pool 1
  let q2 := if 0 < cc.HM then decQ q1 QuotaKind.healthMonitor 1 else q1
  if 0 < cc.member then decQ q2 QuotaKind.member cc.member else q2

/-- C9: `DecrementPoolQuota.execute` is all-or-nothing on one locked
session — if it returns normally the pool, health-monitor, and member
decrements are all published, and if it raises the counters are exactly
the initial ones — and the child decrements are issued only when the
corresponding precomputed child count is positive (and are issued whenever
it is positive and the run succeeds). -/
theorem decrementPoolQuota_single_session_atomicity (φ : Oracle) (pid : String)
    (cc : PoolChildCount) (q : Quotas) :
    ((DecrementPoolQuota.execute φ pid cc q).2.1 = none →
      (DecrementPoolQuota.execute φ pid cc q).2.2 = poolDecTarget q cc)
  ∧ (∀ e, (DecrementPoolQuota.execute φ pid cc q).2.1 = some e →
      (DecrementPoolQuota.execute φ pid cc q).2.2 = q)
  ∧ (RepoCall.decrementQuota QuotaKind.healthMonitor pid 1 ∈
        (DecrementPoolQuota.execute φ pid cc q).1 → 0 < cc.HM)
  ∧ (RepoCall.decrementQuota QuotaKind.member pid cc.member ∈
        (DecrementPoolQuota.execute φ pid cc q).1 → 0 < cc.member)
  ∧ ((DecrementPoolQuota.execute φ pid cc q).2.1 = none →
      (0 < cc.HM → RepoCall.decrementQuota QuotaKind.healthMonitor pid 1 ∈
          (DecrementPoolQuota.execute φ pid cc q).1)
    ∧ (0 < cc.member → RepoCall.decrementQuota QuotaKind.member pid cc.member ∈
          (DecrementPoolQuota.execute φ pid cc q).1)) := by
  unfold DecrementPoolQuota.execute DecrementPoolQuota.hmStep
    DecrementPoolQuota.memberStep commitStep
  rcases h1 : φ (RepoCall.decrementQuota QuotaKind.pool pid 1) with _ | e1
  · simp only [h1]
    by_cases hHM : 0 < cc.HM
    · simp only [if_pos hHM]
      rcases h2 : φ (RepoCall.decrementQuota QuotaKind.healthMonitor pid 1) with _ | e2
      · simp only [h2]
        by_cases hM : 0 < cc.member
        · simp only [if_pos hM]
          rcases h3 : φ (RepoCall.decrementQuota QuotaKind.member pid cc.member)
            with _ | e3
          · simp only [h3]
            rcases hc : φ RepoCall.commit with _ | ec <;> simp only [hc] <;>
              simp_all [poolDecTarget]
          · simp only [h3]
            simp_all [poolDecTarget]
        · simp only [if_neg hM]
          rcases hc : φ RepoCall.commit with _ | ec <;> simp only [hc] <;>
            simp_all [poolDecTarget]
      · simp only [h2]
        simp_all [poolDecTarget]
    · simp only [if_neg hHM]
      by_cases hM : 0 < cc.member
      · simp only [if_pos hM]
        rcases h3 : φ (RepoCall.decrementQuota QuotaKind.member pid cc.member)
          with _ | e3
        · simp only [h3]
          rcases hc : φ RepoCall.commit with _ | ec <;> simp only [hc] <;>
            simp_all [poolDecTarget]
        · simp only [h3]
          simp_all [poolDecTarget]
      · simp only [if_neg hM]
        rcases hc : φ RepoCall.commit with _ | ec <;> simp only [hc] <;>
          simp_all [poolDecTarget]
  · simp only [h1]
    simp_all [poolDecTarget]

/-- C9 witness: the atomicity theorem instantiated at child count
HM = 1, member = 3 under the all-succeed repository. -/
theorem decrementPoolQuota_single_session_atomicity_witness :
    (DecrementPoolQuota.execute noFail "proj" ⟨1, 3⟩ q10).2.2 =
      poolDecTarget q10 ⟨1, 3⟩
  ∧ RepoCall.decrementQuota QuotaKind.member "proj" 3 ∈
      (DecrementPoolQuota.execute noFail "proj" ⟨1, 3⟩ q10).1 := by
  refine ⟨(decrementPoolQuota_single_session_atomicity noFail "proj" ⟨1, 3⟩ q10).1 rfl,
    ((decrementPoolQuota_single_session_atomicity noFail "proj" ⟨1, 3⟩
        q10).2.2.2.2 rfl).2 (by decide)⟩

/-!  Supporting lemmas for the cascading status walk. -/

/-- The listener's own status update is the first call of its subtree
walk, so it is always attempted. -/
theorem listenerUpdate_mem_mark_listener_status (φ : Oracle) (l : ListenerM)
    (s : String) :
    RepoCall.listenerUpdate l.id s ∈
      (MarkLBActiveInDB.mark_listener_status φ l s).1 := by
  unfold MarkLBActiveInDB.mark_listener_status
  cases h : φ (RepoCall.listenerUpdate l.id s) <;>
    simp [andThen, single, h]

/-- When the loop over `xs` finishes without raising, every element's
calls appear in the loop's trace. -/
theorem mem_markList_of_ok {α : Type} (f : α → List RepoCall × Option ExnKind)
    (xs : List α) (hok : (markList f xs).2 = none) :
    ∀ x ∈ xs, ∀ c ∈ (f x).1, c ∈ (markList f xs).1 := by
  induction xs with
  | nil => intro x hx; cases hx
  | cons y ys ih =>
    intro x hx c hc
    rcases hfy : f y with ⟨tr, o⟩
    cases o with
    | some e =>
      rw [markList, hfy] at hok
      simp at hok
    | none =>
      rw [markList, hfy] at hok ⊢
      simp only [] at hok ⊢
      rcases List.mem_cons.mp hx with rfl | hx'
      · have hct : c ∈ tr := by rw [hfy] at hc; exact hc
        exact List.mem_append_left _ hct
      · exact List.mem_append_right _ (ih hok x hx' c hc)

/-- Every listener of the revert loop has its own ERROR update attempted
in the loop's trace, whatever happens inside the other subtrees. -/
theorem mem_revertLoop (φ : Oracle) (ls : List ListenerM) {l : ListenerM}
    (hl : l ∈ ls) :
    RepoCall.listenerUpdate l.id constants.ERROR ∈
      MarkLBActiveInDB.revertLoop φ ls := by
  induction ls with
  | nil => cases hl
  | cons y ys ih =>
    rw [MarkLBActiveInDB.revertLoop]
    rcases List.mem_cons.mp hl with rfl | hl'
    · exact List.mem_append_left _
        (listenerUpdate_mem_mark_listener_status φ l constants.ERROR)
    · exact List.mem_append_right _ (ih hl')

/-- The full shape of `MarkLBActiveInDB.revert` with subobjects when the
initial load balancer get succeeds. -/
theorem markLBActive_revert_trace (φ : Oracle) (lb_id : String)
    (db_lb : LoadBalancerM) (hget : φ (RepoCall.lbGet lb_id) = none) :
    MarkLBActiveInDB.revert true φ lb_id db_lb =
      (RepoCall.lbGet lb_id ::
        (MarkLBActiveInDB.revertLoop φ db_lb.listeners ++
          [RepoCall.lbUpdate lb_id constants.ERROR]), none) := by
  simp [MarkLBActiveInDB.revert, andThen, single, hget,
    task_utils.mark_loadbalancer_prov_status_error, trySwallow]

/-- When `MarkLBActiveInDB.execute` with subobjects returns normally, the
listener loop finished without raising and the trace is the get followed
by the whole walk and the final load balancer update. -/
theorem markLBActive_execute_ok_shape (φ : Oracle) (lb_id : String)
    (db_lb : LoadBalancerM)
    (hok : (MarkLBActiveInDB.execute true φ lb_id db_lb).2 = none) :
    (markList (fun l => MarkLBActiveInDB.mark_listener_status φ l constants.ACTIVE)
        db_lb.listeners).2 = none
    ∧ (MarkLBActiveInDB.execute true φ lb_id db_lb).1 =
        RepoCall.lbGet lb_id ::
          ((markList (fun l => MarkLBActiveInDB.mark_listener_status φ l
              constants.ACTIVE) db_lb.listeners).1 ++
            [RepoCall.lbUpdate lb_id constants.ACTIVE]) := by
  rcases hget : φ (RepoCall.lbGet lb_id) with _ | e
  · rcases hml : (markList (fun l => MarkLBActiveInDB.mark_listener_status φ l
        constants.ACTIVE) db_lb.listeners).2 with _ | e2
    · exact ⟨hml ▸ rfl, by
        simp [MarkLBActiveInDB.execute, andThen, single, hget, hml]⟩
    · exact absurd hok (by
        simp [MarkLBActiveInDB.execute, andThen, single, hget, hml])
  · exact absurd hok (by
      simp [MarkLBActiveInDB.execute, andThen, single, hget])

/-- A concrete two-listener load balancer tree. -/
def lbT : LoadBalancerM :=
  ⟨"lb1", [⟨"L1", [], none⟩, ⟨"L2", [], none⟩]⟩

/-- A repository behaviour where updating listener L1 to ACTIVE raises. -/
def failL1Oracle : Oracle := fun c =>
  if c = RepoCall.listenerUpdate "L1" constants.ACTIVE then
    some (ExnKind.other "deadlock")
  else none

/-- C4, counterexample: in the ACTIVE (execute) direction of the
cascading status walk nothing is caught — when updating listener L1
raises, the exception propagates out of `MarkLBActiveInDB.execute`,
listener L2 is never updated, and neither is the load balancer itself —
so the claim that a sub-node failure is caught and does not block the
remaining nodes in both directions is false. -/
theorem markLBActive_execute_aborts_on_subnode_failure :
    (MarkLBActiveInDB.execute true failL1Oracle "lb1" lbT).2 =
      some (ExnKind.other "deadlock")
  ∧ RepoCall.listenerUpdate "L2" constants.ACTIVE ∉
      (MarkLBActiveInDB.execute true failL1Oracle "lb1" lbT).1
  ∧ RepoCall.lbUpdate "lb1" constants.ACTIVE ∉
      (MarkLBActiveInDB.execute true failL1Oracle "lb1" lbT).1 := by
  refine ⟨?_, ?_, ?_⟩ <;> decide

/-- C4, amended: in the ERROR (revert) direction each listener subtree is
individually guarded, so the walk never raises (once the initial get
succeeds) and every listener's own ERROR update is attempted regardless of
failures in other subtrees; in the ACTIVE (execute) direction nothing is
caught — the walk only reaches every listener when no sub-update raised
(the first failure aborts the walk and propagates, as the counterexample
shows). -/
theorem markLBActive_walk_policy (φ : Oracle) (lb_id : String)
    (db_lb : LoadBalancerM) :
    (φ (RepoCall.lbGet lb_id) = none →
      (MarkLBActiveInDB.revert true φ lb_id db_lb).2 = none
      ∧ ∀ l ∈ db_lb.listeners,
          RepoCall.listenerUpdate l.id constants.ERROR ∈
            (MarkLBActiveInDB.revert true φ lb_id db_lb).1)
  ∧ ((MarkLBActiveInDB.execute true φ lb_id db_lb).2 = none →
      ∀ l ∈ db_lb.listeners,
        RepoCall.listenerUpdate l.id constants.ACTIVE ∈
          (MarkLBActiveInDB.execute true φ lb_id db_lb).1) := by
  constructor
  · intro hget
    rw [markLBActive_revert_trace φ lb_id db_lb hget]
    refine ⟨rfl, ?_⟩
    intro l hl
    exact List.mem_cons_of_mem _
      (List.mem_append_left _ (mem_revertLoop φ db_lb.listeners hl))
  · intro hok l hl
    obtain ⟨hml, htr⟩ := markLBActive_execute_ok_shape φ lb_id db_lb hok
    rw [htr]
    exact List.mem_cons_of_mem _ (List.mem_append_left _
      (mem_markList_of_ok _ _ hml l hl _
        (listenerUpdate_mem_mark_listener_status φ l constants.ACTIVE)))

/-- C4 witness: the amended theorem instantiated at the two-listener tree
under the all-succeed repository. -/
theorem markLBActive_walk_policy_witness :
    (MarkLBActiveInDB.revert true noFail "lb1" lbT).2 = none
  ∧ RepoCall.listenerUpdate "L1" constants.ERROR ∈
      (MarkLBActiveInDB.revert true noFail "lb1" lbT).1
  ∧ RepoCall.listenerUpdate "L2" constants.ACTIVE ∈
      (MarkLBActiveInDB.execute true noFail "lb1" lbT).1 := by
  have h := markLBActive_walk_policy noFail "lb1" lbT
  exact ⟨(h.1 rfl).1,
    (h.1 rfl).2 ⟨"L1", [], none⟩ (by decide),
    h.2 rfl ⟨"L2", [], none⟩ (by decide)⟩

/-- Applying the active-if-not-error status transform twice is the same
as applying it once. -/
theorem prov_status_active_if_not_error_idem (s : String) :
    prov_status_active_if_not_error (prov_status_active_if_not_error s) =
      prov_status_active_if_not_error s := by
  by_cases h : s = constants.ERROR
  · simp [prov_status_active_if_not_error, h]
  · have hs : prov_status_active_if_not_error s = constants.ACTIVE := by
      unfold prov_status_active_if_not_error
      rw [if_neg h]
    rw [hs]
    unfold prov_status_active_if_not_error
    rw [if_neg (by decide : ¬constants.ACTIVE = constants.ERROR)]

/-- Folding the per-listener status update over a listener list changes
exactly the mentioned listener ids, each by one application of the
active-if-not-error transform. -/
theorem foldl_applyListener (ls : List ListenerDict) (σ : String → String)
    (id : String) :
    ls.foldl MarkLBAndListenersActiveInDB.applyListener σ id =
      (if ls.any (fun l => l.listener_id == id) then
        prov_status_active_if_not_error (σ id)
       else σ id) := by
  induction ls generalizing σ with
  | nil => simp
  | cons y ys ih =>
    rw [List.foldl_cons, ih]
    by_cases hy : y.listener_id = id
    · have h1 : MarkLBAndListenersActiveInDB.applyListener σ y id =
          prov_status_active_if_not_error (σ id) := by
        unfold MarkLBAndListenersActiveInDB.applyListener
        rw [if_pos hy.symm]
      by_cases hany : ys.any (fun l => l.listener_id == id)
      · simp [List.any_cons, hy, hany, h1, prov_status_active_if_not_error_idem]
      · simp [List.any_cons, hy, hany, h1]
    · have h1 : MarkLBAndListenersActiveInDB.applyListener σ y id = σ id := by
        unfold MarkLBAndListenersActiveInDB.applyListener
        rw [if_neg (fun hh => hy hh.symm)]
      simp [List.any_cons, hy, h1]

/-- C10: every listener in the list ends with provisioning_status ACTIVE
unless its current stored status is ERROR, which is kept; and when both
the loadbalancer_id argument is empty (None or the empty string) and the
listener list is empty, the task issues no repository call at all — in
particular no load balancer row update. -/
theorem markLBAndListenersActive_policy (lid : Option String)
    (listeners : List ListenerDict) (σ : String → String) (l : ListenerDict) :
    (l ∈ listeners →
      (MarkLBAndListenersActiveInDB.execute lid listeners σ).2 l.listener_id =
        (if σ l.listener_id = constants.ERROR then σ l.listener_id
         else constants.ACTIVE))
  ∧ (truthy lid = false →
      (MarkLBAndListenersActiveInDB.execute lid [] σ).1 = []) := by
  constructor
  · intro hl
    show listeners.foldl MarkLBAndListenersActiveInDB.applyListener σ
        l.listener_id = _
    rw [foldl_applyListener]
    have hany : listeners.any (fun l' => l'.listener_id == l.listener_id) = true :=
      List.any_eq_true.mpr ⟨l, hl, by simp⟩
    rw [if_pos hany]
    rfl
  · intro hfalse
    simp [MarkLBAndListenersActiveInDB.execute, hfalse]

/-- A concrete listener-status store where every listener is pending. -/
def sigmaPending : String → String := fun _ => "PENDING_UPDATE"

/-- C10 witness: the policy theorem instantiated at one pending listener
(which becomes ACTIVE) and at the empty-input case (no calls issued). -/
theorem markLBAndListenersActive_policy_witness :
    (MarkLBAndListenersActiveInDB.execute none [⟨"li1", "lb1"⟩]
        sigmaPending).2 "li1" = constants.ACTIVE
  ∧ (MarkLBAndListenersActiveInDB.execute none [] sigmaPending).1 = [] := by
  constructor
  · have h := (markLBAndListenersActive_policy none [⟨"li1", "lb1"⟩]
      sigmaPending ⟨"li1", "lb1"⟩).1 (by decide)
    rw [if_neg (by decide : ¬sigmaPending "li1" = constants.ERROR)] at h
    exact h
  · exact (markLBAndListenersActive_policy none [] sigmaPending
      ⟨"x", "y"⟩).2 rfl
